import Mathlib

/-!
Shallow embedding of the `Frames` carousel component (src/index.tsx).

The component is a small state machine: it owns `activeIndex` (an internal,
clone-padded frame index), `frameSize` (measured size of one frame), and the
container `position` (the translate offset).  Animated moves set the position
immediately and schedule a completion callback via `setTimeout`; unanimated
moves run the completion synchronously.  We model the scheduled callbacks as a
FIFO queue of captured target indices (`pending`), since every `setTimeout`
uses the same duration and so callbacks fire in the order they were scheduled.
`onFrameUpdate` invocations are modelled as an append-only log (`updates`).

Numbers: JS numbers are modelled as `Int` for indices and `ℚ` for sizes,
positions and gesture deltas (all constants in the source — 0.25, 0.15 — are
exact rationals).
-/

namespace Frames

/-- The configuration props that the modelled logic reads
(`loop`, `clonesCount`, `startFrame`, `frameBoundary` from `IProps`,
plus the number of real children passed to the component). -/
structure Config where
  loop : Bool
  clonesCount : Nat
  childrenCount : Nat
  startFrame : Int
  frameBoundary : ℚ
deriving DecidableEq, Repr

/-- `getClonesCount`: `Math.min(props.clonesCount, Children.count(props.children))` —
ensures that clones count is not higher than children count. -/
def getClonesCount (cfg : Config) : Nat :=
  min cfg.clonesCount cfg.childrenCount

/-- `frames.length`: the number of rendered frame elements.  `render` passes
`loop ? getClonesCount() : 0` clones to `getChildren`, which returns `null`
(zero frames) when there are no children, and otherwise prepends and appends
`clonesCount` clones around the real children. -/
def framesCount (cfg : Config) : Nat :=
  if cfg.childrenCount = 0 then 0
  else cfg.childrenCount + (if cfg.loop then 2 * getClonesCount cfg else 0)

/-- Mutable instance state of the component, plus the two observation logs:
`pending` — targets captured by not-yet-fired `setTimeout` completion
callbacks of animated `moveContainerBy` calls, in scheduling order;
`updates` — arguments of the `onFrameUpdate` calls made so far. -/
structure State where
  activeIndex : Int
  position : ℚ
  frameSize : ℚ
  pending : List Int
  updates : List Int
deriving DecidableEq, Repr

/-- The public→internal index compensation used by `goTo`:
`props.loop ? index + getClonesCount() : index`. -/
def toInternal (loop : Bool) (clones : Nat) (index : Int) : Int :=
  if loop then index + clones else index

/-- The internal→public index compensation used in the `goToFrame` completion
callback before calling `onFrameUpdate`: `loop ? index - clonesCount : index`. -/
def toPublic (loop : Bool) (clones : Nat) (index : Int) : Int :=
  if loop then index - clones else index

/-- `goToFrame(index, animate)` with an explicit fuel bounding the depth of the
seam-jump recursion (the completion callback re-invokes `goToFrame` when the
transition landed on a clone).  The body of the completion callback
(source lines 342–359) is inlined in the unanimated branch; animated calls
record the captured target in `pending` instead, to be run by
`fireCompletion`. -/
def goToFrameF (cfg : Config) : Nat → State → Int → Bool → State
  | 0, s, _, _ => s
  | fuel + 1, s, index, animate =>
    if framesCount cfg = 0 ∨ index < 0 ∨ (framesCount cfg : Int) < index then s
    else
      let s1 : State := { s with position := -(index : ℚ) * s.frameSize }
      if animate then
        { s1 with pending := s1.pending ++ [index] }
      else
        let clones : Int := getClonesCount cfg
        let firstRealIndex : Int := clones
        let lastRealIndex : Int := ((framesCount cfg : Int) - 1) - clones
        if cfg.loop ∧ (index < firstRealIndex ∨ lastRealIndex < index) then
          goToFrameF cfg fuel s1
            (if s1.activeIndex ≤ index then firstRealIndex else lastRealIndex) false
        else
          { s1 with activeIndex := index,
                    updates := s1.updates ++ [toPublic cfg.loop (getClonesCount cfg) index] }

/-- The completion callback of `moveContainerBy` as scheduled by `goToFrame`
(source lines 342–359), run against the state at firing time with the captured
target `index`; a seam jump re-invokes `goToFrame` unanimated. -/
def doneCallback (cfg : Config) (fuel : Nat) (s : State) (index : Int) : State :=
  let clones : Int := getClonesCount cfg
  let firstRealIndex : Int := clones
  let lastRealIndex : Int := ((framesCount cfg : Int) - 1) - clones
  if cfg.loop ∧ (index < firstRealIndex ∨ lastRealIndex < index) then
    goToFrameF cfg fuel s
      (if s.activeIndex ≤ index then firstRealIndex else lastRealIndex) false
  else
    { s with activeIndex := index,
             updates := s.updates ++ [toPublic cfg.loop (getClonesCount cfg) index] }

/-- Seam-jump recursion depth is at most two `goToFrame` invocations, so any
fuel of at least `framesCount + 2` is never exhausted. -/
def defaultFuel (cfg : Config) : Nat := framesCount cfg + 2

/-- `goToFrame(index, animate)`. -/
def goToFrame (cfg : Config) (s : State) (index : Int) (animate : Bool) : State :=
  goToFrameF cfg (defaultFuel cfg) s index animate

/-- Firing of the earliest scheduled `setTimeout` completion: all animated
moves use the same transition duration, so callbacks fire FIFO. -/
def fireCompletion (cfg : Config) (s : State) : State :=
  match s.pending with
  | [] => s
  | index :: rest => doneCallback cfg (defaultFuel cfg) { s with pending := rest } index

/-- `getNextIndex(forward)`:
`forward ? Math.min(current + 1, frames.length - 1) : Math.max(current - 1, 0)`. -/
def getNextIndex (cfg : Config) (s : State) (forward : Bool) : Int :=
  if forward then min (s.activeIndex + 1) ((framesCount cfg : Int) - 1)
  else max (s.activeIndex - 1) 0

/-- `next()`: `goToFrame(getNextIndex(true))`, animated by default. -/
def next (cfg : Config) (s : State) : State :=
  goToFrame cfg s (getNextIndex cfg s true) true

/-- `prev()`: `goToFrame(getNextIndex(false))`, animated by default. -/
def prev (cfg : Config) (s : State) : State :=
  goToFrame cfg s (getNextIndex cfg s false) true

/-- `goTo(index)`: `goToFrame(props.loop ? index + getClonesCount() : index)`. -/
def goTo (cfg : Config) (s : State) (index : Int) : State :=
  goToFrame cfg s (toInternal cfg.loop (getClonesCount cfg) index) true

/-- `isOutOfBounds(position)`:
`(activeIndex === 0 && position >= 0) || (activeIndex === last && position <= -frameSize * last)`
with `last = frames.length - 1`. -/
def isOutOfBounds (cfg : Config) (s : State) (position : ℚ) : Bool :=
  let last : Int := (framesCount cfg : Int) - 1
  decide (s.activeIndex = 0 ∧ 0 ≤ position) ||
    decide (s.activeIndex = last ∧ position ≤ -s.frameSize * (last : ℚ))

/-- The `PAN_PREV`/`PAN_NEXT` branch of `onEvents` for a pan-move with the
given signed delta.  Returns the new state paired with whether
`hammer.stop(true)` was invoked (halting the current gesture sequence).
A delta beyond a full frame commits one step; otherwise the container is
live-repositioned, dampening the delta by 0.15 when out of bounds and not
looping. -/
def onPanMove (cfg : Config) (s : State) (delta : ℚ) : State × Bool :=
  let framePos : ℚ := -(s.activeIndex : ℚ) * s.frameSize
  if s.frameSize < |delta| then
    ((if 0 < delta then prev cfg s else next cfg s), true)
  else
    let delta' : ℚ :=
      if isOutOfBounds cfg s (framePos + delta) && !cfg.loop then delta * (0.15 : ℚ)
      else delta
    ({ s with position := framePos + delta' }, false)

/-- The `PAN_END`/`PAN_CANCEL` branch of `onEvents`: commit one step when the
delta exceeds `frameSize * frameBoundary`, otherwise re-target the current
active index (animated snap back). -/
def onPanEnd (cfg : Config) (s : State) (delta : ℚ) : State :=
  if s.frameSize * cfg.frameBoundary < |delta| then
    (if 0 < delta then prev cfg s else next cfg s)
  else
    goToFrame cfg s s.activeIndex true

/-- State right after the constructor: `this.activeIndex = props.startFrame`
(no clone compensation is applied there). -/
def initialState (cfg : Config) : State :=
  { activeIndex := cfg.startFrame, position := 0, frameSize := 0,
    pending := [], updates := [] }

/-- `init()`: store the measured frame size, then `goToFrame(activeIndex, false)`. -/
def init (cfg : Config) (s : State) (measuredSize : ℚ) : State :=
  let s1 : State := { s with frameSize := measuredSize }
  goToFrame cfg s1 s1.activeIndex false

/-- `componentDidMount` after construction: constructor state followed by `init`. -/
def mount (cfg : Config) (measuredSize : ℚ) : State :=
  init cfg (initialState cfg) measuredSize

/-- The silent-rejection guard of `goToFrame`:
`!framesCount || index < 0 || index > framesCount`. -/
def rejects (cfg : Config) (index : Int) : Prop :=
  framesCount cfg = 0 ∨ index < 0 ∨ (framesCount cfg : Int) < index

instance (cfg : Config) (index : Int) : Decidable (rejects cfg index) := by
  unfold rejects; infer_instance

theorem goToFrameF_succ_eq (cfg : Config) (fuel : Nat) (s : State) (index : Int)
    (animate : Bool) :
    goToFrameF cfg (fuel + 1) s index animate =
      if framesCount cfg = 0 ∨ index < 0 ∨ (framesCount cfg : Int) < index then s
      else
        let s1 : State := { s with position := -(index : ℚ) * s.frameSize }
        if animate then { s1 with pending := s1.pending ++ [index] }
        else doneCallback cfg fuel s1 index := rfl

theorem goToFrame_eq (cfg : Config) (s : State) (index : Int) (animate : Bool) :
    goToFrame cfg s index animate =
      if framesCount cfg = 0 ∨ index < 0 ∨ (framesCount cfg : Int) < index then s
      else
        let s1 : State := { s with position := -(index : ℚ) * s.frameSize }
        if animate then { s1 with pending := s1.pending ++ [index] }
        else doneCallback cfg (framesCount cfg + 1) s1 index := rfl

theorem goToFrame_rejected (cfg : Config) (s : State) (index : Int) (animate : Bool)
    (h : rejects cfg index) : goToFrame cfg s index animate = s := by
  unfold rejects at h
  rw [goToFrame_eq, if_pos h]

theorem goToFrame_animated (cfg : Config) (s : State) (index : Int)
    (h : ¬ rejects cfg index) :
    goToFrame cfg s index true =
      { s with position := -(index : ℚ) * s.frameSize,
               pending := s.pending ++ [index] } := by
  unfold rejects at h
  rw [goToFrame_eq, if_neg h]
  rfl

theorem doneCallback_noSeam (cfg : Config) (fuel : Nat) (s : State) (index : Int)
    (h : ¬ (cfg.loop = true ∧ (index < (getClonesCount cfg : Int) ∨
      ((framesCount cfg : Int) - 1) - (getClonesCount cfg : Int) < index))) :
    doneCallback cfg fuel s index =
      { s with activeIndex := index,
               updates := s.updates ++ [toPublic cfg.loop (getClonesCount cfg) index] } := by
  unfold doneCallback
  simp only [if_neg h]

/-- In loop mode with at least one rendered frame, the real-frame band
`[firstRealIndex, lastRealIndex]` is non-empty and sits inside `[0, framesCount]`. -/
theorem seam_bounds (cfg : Config) (hfc : framesCount cfg ≠ 0) (hl : cfg.loop = true) :
    0 ≤ (getClonesCount cfg : Int) ∧
    (getClonesCount cfg : Int) ≤ ((framesCount cfg : Int) - 1) - (getClonesCount cfg : Int) ∧
    ((framesCount cfg : Int) - 1) - (getClonesCount cfg : Int) ≤ (framesCount cfg : Int) := by
  have hm : cfg.childrenCount ≠ 0 := by
    intro h0
    apply hfc
    simp [framesCount, h0]
  have hfc' : framesCount cfg = cfg.childrenCount + 2 * getClonesCount cfg := by
    simp [framesCount, hm, hl]
  have hcm : getClonesCount cfg ≤ cfg.childrenCount := min_le_right _ _
  rw [hfc']
  push_cast
  omega

theorem doneCallback_seam (cfg : Config) (fuel : Nat) (s : State) (index : Int)
    (hfc : framesCount cfg ≠ 0) (hl : cfg.loop = true)
    (hout : index < (getClonesCount cfg : Int) ∨
      ((framesCount cfg : Int) - 1) - (getClonesCount cfg : Int) < index) :
    doneCallback cfg (fuel + 1) s index =
      (let t : Int := if s.activeIndex ≤ index then (getClonesCount cfg : Int)
        else ((framesCount cfg : Int) - 1) - (getClonesCount cfg : Int)
      { s with position := -(t : ℚ) * s.frameSize, activeIndex := t,
               updates := s.updates ++ [toPublic cfg.loop (getClonesCount cfg) t] }) := by
  obtain ⟨h0, h1, h2⟩ := seam_bounds cfg hfc hl
  unfold doneCallback
  rw [if_pos ⟨hl, hout⟩]
  set t : Int := if s.activeIndex ≤ index then (getClonesCount cfg : Int)
    else ((framesCount cfg : Int) - 1) - (getClonesCount cfg : Int) with ht
  have htlo : (getClonesCount cfg : Int) ≤ t ∧ t ≤ ((framesCount cfg : Int) - 1) -
      (getClonesCount cfg : Int) := by
    rw [ht]; constructor <;> [skip; skip] <;> split <;> omega
  rw [goToFrameF_succ_eq, if_neg (by push_neg; refine ⟨by omega, by omega, by omega⟩)]
  simp only [Bool.false_eq_true, if_false]
  rw [doneCallback_noSeam]
  push_neg
  intro _
  omega

/-- Number of observable effects so far: scheduled completions plus
`onFrameUpdate` calls.  An accepted `goToFrame` always increases it by one. -/
def obsLen (s : State) : Nat := s.pending.length + s.updates.length

theorem goToFrame_accepted_obsLen (cfg : Config) (s : State) (index : Int)
    (animate : Bool) (h : ¬ rejects cfg index) :
    obsLen (goToFrame cfg s index animate) = obsLen s + 1 := by
  unfold rejects at h
  rw [goToFrame_eq, if_neg h]
  cases animate with
  | true =>
    simp [obsLen]
    omega
  | false =>
    simp only [Bool.false_eq_true, if_false]
    by_cases hseam : cfg.loop = true ∧ (index < (getClonesCount cfg : Int) ∨
      ((framesCount cfg : Int) - 1) - (getClonesCount cfg : Int) < index)
    · have hfc : framesCount cfg ≠ 0 := by
        intro h0; exact h (Or.inl h0)
      rw [doneCallback_seam cfg (framesCount cfg) _ index hfc hseam.1 hseam.2]
      simp [obsLen]
      omega
    · rw [doneCallback_noSeam cfg _ _ index hseam]
      simp [obsLen]
      omega

/-- C1: for every public index and any effective clones count, converting to
an internal index (loop mode: add the effective clones count, as `goTo` does)
and back to a public index (loop mode: subtract it, as done before notifying
`onFrameUpdate`) yields the original index, and the converse round-trip from
any internal index also yields the original value; with looping disabled both
conversions are the identity, and `goTo` commits exactly the converted index. -/
theorem toInternal_toPublic_roundtrip (loop : Bool) (clones : Nat) (i : Int)
    (cfg : Config) (s : State) :
    toPublic loop clones (toInternal loop clones i) = i ∧
    toInternal loop clones (toPublic loop clones i) = i ∧
    (loop = false → toInternal loop clones i = i ∧ toPublic loop clones i = i) ∧
    goTo cfg s i = goToFrame cfg s (toInternal cfg.loop (getClonesCount cfg) i) true := by
  refine ⟨?_, ?_, ?_, rfl⟩ <;> cases loop <;> simp [toInternal, toPublic]

theorem toInternal_toPublic_roundtrip_witness :
    toPublic true 2 (toInternal true 2 5) = 5 ∧ toInternal false 3 7 = 7 :=
  ⟨(toInternal_toPublic_roundtrip true 2 5 ⟨true, 2, 3, 0, 1/4⟩
      ⟨0, 0, 0, [], []⟩).1,
   ((toInternal_toPublic_roundtrip false 3 7 ⟨false, 3, 4, 0, 1/4⟩
      ⟨0, 0, 0, [], []⟩).2.2.1 rfl).1⟩

/-- C6: `goToFrame(index)` leaves the state untouched (no container movement,
no `activeIndex` change, no scheduled completion, no `onFrameUpdate` call) if
and only if there are no rendered frames, or the index is negative, or the
index exceeds `framesCount`; in particular `index = framesCount` — one past
the last internal slot — is accepted and has an effect. -/
theorem goToFrame_noop_iff (cfg : Config) (s : State) (index : Int)
    (animate : Bool) :
    goToFrame cfg s index animate = s ↔
      (framesCount cfg = 0 ∨ index < 0 ∨ (framesCount cfg : Int) < index) := by
  constructor
  · intro heq
    by_contra hrej
    have hobs := goToFrame_accepted_obsLen cfg s index animate hrej
    rw [heq] at hobs
    omega
  · intro hrej
    exact goToFrame_rejected cfg s index animate hrej

/-- C7: `getNextIndex` clamps rather than wraps, for every configuration
(looping or not): the forward target never exceeds `framesCount - 1`, the
backward target never goes negative, from the last frame `next` re-targets the
last frame itself, from index 0 `prev` re-targets 0, and `next`/`prev` commit
exactly `min(activeIndex + 1, framesCount - 1)` / `max(activeIndex - 1, 0)`. -/
theorem getNextIndex_clamped (cfg : Config) (s : State) :
    getNextIndex cfg s true ≤ (framesCount cfg : Int) - 1 ∧
    0 ≤ getNextIndex cfg s false ∧
    getNextIndex cfg { s with activeIndex := (framesCount cfg : Int) - 1 } true =
      (framesCount cfg : Int) - 1 ∧
    getNextIndex cfg { s with activeIndex := 0 } false = 0 ∧
    next cfg s = goToFrame cfg s (min (s.activeIndex + 1) ((framesCount cfg : Int) - 1)) true ∧
    prev cfg s = goToFrame cfg s (max (s.activeIndex - 1) 0) true := by
  refine ⟨min_le_right _ _, le_max_right _ _, ?_, ?_, rfl, rfl⟩
  · simp only [getNextIndex, if_pos rfl]
    have h1 : (framesCount cfg : Int) - 1 + 1 = (framesCount cfg : Int) := by omega
    rw [h1]
    exact min_eq_right (by omega)
  · simp only [getNextIndex]
    norm_num

theorem fireCompletion_cons (cfg : Config) (s : State) (index : Int)
    (rest : List Int) (h : s.pending = index :: rest) :
    fireCompletion cfg s =
      doneCallback cfg (defaultFuel cfg) { s with pending := rest } index := by
  unfold fireCompletion
  rw [h]

/-- Running one animated `goToFrame` and then firing its scheduled completion,
starting from a state with no pending completions. -/
theorem fire_after_animated (cfg : Config) (s : State) (index : Int)
    (hrej : ¬ rejects cfg index) (hpend : s.pending = []) :
    fireCompletion cfg (goToFrame cfg s index true) =
      doneCallback cfg (defaultFuel cfg)
        { s with position := -(index : ℚ) * s.frameSize } index := by
  rw [goToFrame_animated cfg s index hrej,
    fireCompletion_cons cfg _ index [] (by simp [hpend]), hpend]

theorem doneCallback_default_seam (cfg : Config) (s : State) (index : Int)
    (hfc : framesCount cfg ≠ 0) (hl : cfg.loop = true)
    (hout : index < (getClonesCount cfg : Int) ∨
      ((framesCount cfg : Int) - 1) - (getClonesCount cfg : Int) < index) :
    doneCallback cfg (defaultFuel cfg) s index =
      (let t : Int := if s.activeIndex ≤ index then (getClonesCount cfg : Int)
        else ((framesCount cfg : Int) - 1) - (getClonesCount cfg : Int)
      { s with position := -(t : ℚ) * s.frameSize, activeIndex := t,
               updates := s.updates ++ [toPublic cfg.loop (getClonesCount cfg) t] }) := by
  have h : defaultFuel cfg = (framesCount cfg + 1) + 1 := rfl
  rw [h]
  exact doneCallback_seam cfg (framesCount cfg + 1) s index hfc hl hout

/-- C2 counterexample: with 3 real frames and `clonesCount = 2` (padded length
7, real band `[2, 4]`), an animated `goToFrame 6` issued from `activeIndex = 4`
completes on a clone and seam-jumps unanimated — but since
`activeIndex = 4 ≤ 6` counts as forward, it lands at `firstRealIndex = 2`, not
at `lastRealIndex = 4` as the claim's concrete example demands. -/
theorem seam_jump_at_six_counterexample :
    (fireCompletion ⟨true, 2, 3, 0, 1/4⟩
      (goToFrame ⟨true, 2, 3, 0, 1/4⟩ ⟨4, -1200, 300, [], []⟩ 6 true)).activeIndex = 2 ∧
    ¬ (fireCompletion ⟨true, 2, 3, 0, 1/4⟩
      (goToFrame ⟨true, 2, 3, 0, 1/4⟩ ⟨4, -1200, 300, [], []⟩ 6 true)).activeIndex = 4 := by
  constructor
  · rfl
  · decide

/-- C2 (amended): when looping is enabled and an animated `goToFrame`
completes at a valid target, the completion seam-jumps unanimated to
`firstRealIndex` if `activeIndex ≤ target` (ties count as forward) and to
`lastRealIndex` otherwise whenever the target lies outside
`[firstRealIndex, lastRealIndex]`, and otherwise finalizes by setting
`activeIndex` to the target; either way `onFrameUpdate` is then notified with
the settled index in public coordinates.  (With 3 real frames and
`clonesCount = 2`, settling at internal index 0 from `activeIndex = 0`
seam-jumps to 2; settling at internal index 6 seam-jumps to 2 — not 4 —
because any `activeIndex ≤ 6` counts as forward.) -/
theorem goToFrame_completion_spec (cfg : Config) (s : State) (index : Int)
    (hl : cfg.loop = true) (hfc : framesCount cfg ≠ 0)
    (h0 : 0 ≤ index) (hub : index ≤ (framesCount cfg : Int))
    (hpend : s.pending = []) :
    (fireCompletion cfg (goToFrame cfg s index true)).activeIndex =
      (if index < (getClonesCount cfg : Int) ∨
          ((framesCount cfg : Int) - 1) - (getClonesCount cfg : Int) < index then
        (if s.activeIndex ≤ index then (getClonesCount cfg : Int)
          else ((framesCount cfg : Int) - 1) - (getClonesCount cfg : Int))
      else index) ∧
    (fireCompletion cfg (goToFrame cfg s index true)).updates =
      s.updates ++ [toPublic cfg.loop (getClonesCount cfg)
        (if index < (getClonesCount cfg : Int) ∨
            ((framesCount cfg : Int) - 1) - (getClonesCount cfg : Int) < index then
          (if s.activeIndex ≤ index then (getClonesCount cfg : Int)
            else ((framesCount cfg : Int) - 1) - (getClonesCount cfg : Int))
        else index)] ∧
    (fireCompletion cfg (goToFrame cfg s index true)).pending = [] := by
  have hrej : ¬ rejects cfg index := by
    unfold rejects
    push_neg
    exact ⟨hfc, h0, by omega⟩
  rw [fire_after_animated cfg s index hrej hpend]
  by_cases hout : index < (getClonesCount cfg : Int) ∨
      ((framesCount cfg : Int) - 1) - (getClonesCount cfg : Int) < index
  · rw [doneCallback_default_seam cfg _ index hfc hl hout]
    rw [if_pos hout]
    refine ⟨rfl, by simp, hpend⟩
  · rw [doneCallback_noSeam cfg _ _ index (by tauto)]
    rw [if_neg hout]
    exact ⟨rfl, rfl, hpend⟩

theorem goToFrame_completion_spec_witness :
    (fireCompletion ⟨true, 2, 3, 0, 1/4⟩
      (goToFrame ⟨true, 2, 3, 0, 1/4⟩ ⟨0, 0, 300, [], []⟩ 0 true)).activeIndex = 2 ∧
    (fireCompletion ⟨true, 2, 3, 0, 1/4⟩
      (goToFrame ⟨true, 2, 3, 0, 1/4⟩ ⟨0, 0, 300, [], []⟩ 0 true)).updates = [0] := by
  have h := goToFrame_completion_spec ⟨true, 2, 3, 0, 1/4⟩ ⟨0, 0, 300, [], []⟩ 0
    rfl (by decide) (by decide) (by decide) rfl
  obtain ⟨h1, h2, -⟩ := h
  norm_num at h1 h2
  exact ⟨h1, h2⟩

/-- C3 counterexample: with `loop = false`, 3 frames, `frameSize = 300`, an
animated `goToFrame 1` superseded by an animated `goToFrame 2` before its
completion fires: the first (stale) completion still sets `activeIndex := 1`
and invokes `onFrameUpdate 1`, so after both completions `onFrameUpdate` has
fired twice — `[1, 2]`, not exactly once with `[2]`. -/
theorem stale_completion_fires_counterexample :
    (fireCompletion ⟨false, 2, 3, 0, 1/4⟩
      (goToFrame ⟨false, 2, 3, 0, 1/4⟩
        (goToFrame ⟨false, 2, 3, 0, 1/4⟩ ⟨0, 0, 300, [], []⟩ 1 true) 2 true)).activeIndex = 1 ∧
    (fireCompletion ⟨false, 2, 3, 0, 1/4⟩ (fireCompletion ⟨false, 2, 3, 0, 1/4⟩
      (goToFrame ⟨false, 2, 3, 0, 1/4⟩
        (goToFrame ⟨false, 2, 3, 0, 1/4⟩ ⟨0, 0, 300, [], []⟩ 1 true) 2 true))).updates
      = [1, 2] ∧
    ¬ (fireCompletion ⟨false, 2, 3, 0, 1/4⟩ (fireCompletion ⟨false, 2, 3, 0, 1/4⟩
      (goToFrame ⟨false, 2, 3, 0, 1/4⟩
        (goToFrame ⟨false, 2, 3, 0, 1/4⟩ ⟨0, 0, 300, [], []⟩ 1 true) 2 true))).updates
      = [2] := by
  refine ⟨rfl, rfl, ?_⟩
  decide

/-- C3 (amended): a superseding `goToFrame` does not cancel the pending
completion: both completions fire in scheduling order and each applies its
effects — the stale one first sets `activeIndex` to its own outdated target
and notifies `onFrameUpdate` with that target's public index, then the second
does the same for its target.  The final settled state does match the second
call's target, but `onFrameUpdate` fires once per completed transition (twice
here), not exactly once.  (Stated for targets that do not land on clones, so
no seam jump intervenes.) -/
theorem superseded_completion_still_fires (cfg : Config) (s : State) (a b : Int)
    (hfc : framesCount cfg ≠ 0)
    (ha0 : 0 ≤ a) (hab : a ≤ (framesCount cfg : Int))
    (hb0 : 0 ≤ b) (hbb : b ≤ (framesCount cfg : Int))
    (hsa : ¬ (cfg.loop = true ∧ (a < (getClonesCount cfg : Int) ∨
      ((framesCount cfg : Int) - 1) - (getClonesCount cfg : Int) < a)))
    (hsb : ¬ (cfg.loop = true ∧ (b < (getClonesCount cfg : Int) ∨
      ((framesCount cfg : Int) - 1) - (getClonesCount cfg : Int) < b)))
    (hpend : s.pending = []) :
    (fireCompletion cfg (goToFrame cfg
        (goToFrame cfg s a true) b true)).activeIndex = a ∧
    (fireCompletion cfg (fireCompletion cfg (goToFrame cfg
        (goToFrame cfg s a true) b true))).activeIndex = b ∧
    (fireCompletion cfg (fireCompletion cfg (goToFrame cfg
        (goToFrame cfg s a true) b true))).updates =
      s.updates ++ [toPublic cfg.loop (getClonesCount cfg) a,
        toPublic cfg.loop (getClonesCount cfg) b] ∧
    (fireCompletion cfg (fireCompletion cfg (goToFrame cfg
        (goToFrame cfg s a true) b true))).pending = [] := by
  have hrejA : ¬ rejects cfg a := by
    unfold rejects
    push_neg
    exact ⟨hfc, ha0, by omega⟩
  have hrejB : ¬ rejects cfg b := by
    unfold rejects
    push_neg
    exact ⟨hfc, hb0, by omega⟩
  rw [goToFrame_animated cfg s a hrejA, goToFrame_animated cfg _ b hrejB]
  rw [fireCompletion_cons cfg _ a ([b]) (by simp [hpend])]
  rw [doneCallback_noSeam cfg _ _ a hsa]
  refine ⟨rfl, ?_⟩
  rw [fireCompletion_cons cfg _ b ([]) (by simp)]
  rw [doneCallback_noSeam cfg _ _ b hsb]
  refine ⟨rfl, by simp, rfl⟩

theorem superseded_completion_still_fires_witness :
    (fireCompletion ⟨false, 2, 3, 0, 1/4⟩ (fireCompletion ⟨false, 2, 3, 0, 1/4⟩
      (goToFrame ⟨false, 2, 3, 0, 1/4⟩
        (goToFrame ⟨false, 2, 3, 0, 1/4⟩ ⟨0, 0, 300, [], []⟩ 1 true) 2 true))).activeIndex
      = 2 ∧
    (fireCompletion ⟨false, 2, 3, 0, 1/4⟩ (fireCompletion ⟨false, 2, 3, 0, 1/4⟩
      (goToFrame ⟨false, 2, 3, 0, 1/4⟩
        (goToFrame ⟨false, 2, 3, 0, 1/4⟩ ⟨0, 0, 300, [], []⟩ 1 true) 2 true))).updates
      = [1, 2] := by
  have h := superseded_completion_still_fires ⟨false, 2, 3, 0, 1/4⟩
    ⟨0, 0, 300, [], []⟩ 1 2 (by decide) (by decide) (by decide) (by decide)
    (by decide) (by decide) (by decide) rfl
  obtain ⟨-, h2, h3, -⟩ := h
  norm_num at h2 h3
  exact ⟨h2, h3⟩

/-- C10: re-targeting the current `activeIndex` (pan-end snap-back below the
boundary, or the unanimated re-settle done by `init`/`recalculate`/resize)
completes off a clone by reassigning `activeIndex` to its own value and
invoking `onFrameUpdate` again with the current, unchanged public index — an
`onFrameUpdate` call therefore does not imply the active frame changed.
Both the unanimated path and the animated path with its completion fired are
covered. -/
theorem retarget_same_index_refires_update (cfg : Config) (s : State)
    (hfc : framesCount cfg ≠ 0) (h0 : 0 ≤ s.activeIndex)
    (hub : s.activeIndex ≤ (framesCount cfg : Int))
    (hseam : ¬ (cfg.loop = true ∧ (s.activeIndex < (getClonesCount cfg : Int) ∨
      ((framesCount cfg : Int) - 1) - (getClonesCount cfg : Int) < s.activeIndex)))
    (hpend : s.pending = []) :
    (goToFrame cfg s s.activeIndex false).activeIndex = s.activeIndex ∧
    (goToFrame cfg s s.activeIndex false).updates =
      s.updates ++ [toPublic cfg.loop (getClonesCount cfg) s.activeIndex] ∧
    (fireCompletion cfg (goToFrame cfg s s.activeIndex true)).activeIndex =
      s.activeIndex ∧
    (fireCompletion cfg (goToFrame cfg s s.activeIndex true)).updates =
      s.updates ++ [toPublic cfg.loop (getClonesCount cfg) s.activeIndex] := by
  have hrej : ¬ rejects cfg s.activeIndex := by
    unfold rejects
    push_neg
    exact ⟨hfc, h0, by omega⟩
  have hgse : goToFrame cfg s s.activeIndex false =
      doneCallback cfg (framesCount cfg + 1)
        { s with position := -(s.activeIndex : ℚ) * s.frameSize } s.activeIndex := by
    rw [goToFrame_eq, if_neg (by unfold rejects at hrej; exact hrej)]
    rfl
  rw [hgse, doneCallback_noSeam cfg _ _ s.activeIndex hseam]
  rw [fire_after_animated cfg s s.activeIndex hrej hpend]
  rw [doneCallback_noSeam cfg _ _ s.activeIndex hseam]
  exact ⟨rfl, rfl, rfl, rfl⟩

theorem retarget_same_index_refires_update_witness :
    (goToFrame ⟨false, 2, 3, 0, 1/4⟩ ⟨1, -300, 300, [], []⟩ 1 false).activeIndex = 1 ∧
    (goToFrame ⟨false, 2, 3, 0, 1/4⟩ ⟨1, -300, 300, [], []⟩ 1 false).updates = [1] := by
  have h := retarget_same_index_refires_update ⟨false, 2, 3, 0, 1/4⟩
    ⟨1, -300, 300, [], []⟩ (by decide) (by decide) (by decide) (by decide) rfl
  obtain ⟨h1, h2, -, -⟩ := h
  norm_num at h1 h2
  exact ⟨h1, h2⟩

/-- C4: evaluation of the construction path at `loop = true`, 3 children,
`clonesCount = 2`, `startFrame = 1`.  The constructor stores
`activeIndex = startFrame = 1` with no clone compensation, although the
internal coordinate of public frame 1 is `toInternal = 1 + 2 = 3`; the mount
re-settle then lands on internal index 1 (a clone), seam-jumps forward to
internal 2 and reports public index 0 — not the configured start frame 1.
With `loop = false` the stored index matches the claim. -/
theorem constructor_does_not_compensate_startFrame :
    (initialState ⟨true, 2, 3, 1, 1/4⟩).activeIndex = 1 ∧
    toInternal true (getClonesCount ⟨true, 2, 3, 1, 1/4⟩) 1 = 3 ∧
    ¬ (initialState ⟨true, 2, 3, 1, 1/4⟩).activeIndex =
      toInternal true (getClonesCount ⟨true, 2, 3, 1, 1/4⟩) 1 ∧
    (mount ⟨true, 2, 3, 1, 1/4⟩ 300).activeIndex = 2 ∧
    (mount ⟨true, 2, 3, 1, 1/4⟩ 300).updates = [0] ∧
    (initialState ⟨false, 2, 3, 1, 1/4⟩).activeIndex = 1 := by
  decide

theorem prev_schedules (cfg : Config) (s : State)
    (h0 : 0 ≤ s.activeIndex) (h1 : s.activeIndex ≤ (framesCount cfg : Int) - 1) :
    prev cfg s =
      { s with position := -((max (s.activeIndex - 1) 0 : Int) : ℚ) * s.frameSize,
               pending := s.pending ++ [max (s.activeIndex - 1) 0] } := by
  have hg : getNextIndex cfg s false = max (s.activeIndex - 1) 0 := by
    simp [getNextIndex]
  have hrej : ¬ rejects cfg (max (s.activeIndex - 1) 0) := by
    unfold rejects
    push_neg
    refine ⟨by omega, le_max_right _ _, ?_⟩
    omega
  unfold prev
  rw [hg, goToFrame_animated cfg s _ hrej]

theorem next_schedules (cfg : Config) (s : State)
    (h0 : 0 ≤ s.activeIndex) (h1 : s.activeIndex ≤ (framesCount cfg : Int) - 1) :
    next cfg s =
      { s with position :=
          -((min (s.activeIndex + 1) ((framesCount cfg : Int) - 1) : Int) : ℚ) * s.frameSize,
               pending := s.pending ++ [min (s.activeIndex + 1) ((framesCount cfg : Int) - 1)] } := by
  have hg : getNextIndex cfg s true = min (s.activeIndex + 1) ((framesCount cfg : Int) - 1) := by
    simp [getNextIndex]
  have hrej : ¬ rejects cfg (min (s.activeIndex + 1) ((framesCount cfg : Int) - 1)) := by
    unfold rejects
    push_neg
    refine ⟨by omega, by omega, by omega⟩
  unfold next
  rw [hg, goToFrame_animated cfg s _ hrej]

/-- C5: for every pan-end or pan-cancel event with delta `d`, if
`|d| > frameSize * frameBoundary` the handler commits exactly one clamped step
in `d`'s direction (`d > 0` toward previous, otherwise toward next), and
otherwise it re-targets the unchanged active index as an animated snap back;
the decision only schedules a transition — `activeIndex` and the
`onFrameUpdate` log are untouched at this point. -/
theorem onPanEnd_boundary (cfg : Config) (s : State) (delta : ℚ)
    (h0 : 0 ≤ s.activeIndex) (h1 : s.activeIndex ≤ (framesCount cfg : Int) - 1) :
    (onPanEnd cfg s delta).pending =
      s.pending ++ [if s.frameSize * cfg.frameBoundary < |delta| then
        (if 0 < delta then max (s.activeIndex - 1) 0
          else min (s.activeIndex + 1) ((framesCount cfg : Int) - 1))
      else s.activeIndex] ∧
    (onPanEnd cfg s delta).activeIndex = s.activeIndex ∧
    (onPanEnd cfg s delta).updates = s.updates := by
  unfold onPanEnd
  by_cases hb : s.frameSize * cfg.frameBoundary < |delta|
  · rw [if_pos hb, if_pos hb]
    by_cases hd : 0 < delta
    · rw [if_pos hd, if_pos hd, prev_schedules cfg s h0 h1]
      exact ⟨rfl, rfl, rfl⟩
    · rw [if_neg hd, if_neg hd, next_schedules cfg s h0 h1]
      exact ⟨rfl, rfl, rfl⟩
  · rw [if_neg hb, if_neg hb]
    have hrej : ¬ rejects cfg s.activeIndex := by
      unfold rejects
      push_neg
      exact ⟨by omega, h0, by omega⟩
    rw [goToFrame_animated cfg s _ hrej]
    exact ⟨rfl, rfl, rfl⟩

theorem onPanEnd_boundary_witness :
    (onPanEnd ⟨false, 2, 3, 0, 1/4⟩ ⟨1, -300, 300, [], []⟩ 74).pending = [1] ∧
    (onPanEnd ⟨false, 2, 3, 0, 1/4⟩ ⟨1, -300, 300, [], []⟩ 76).pending = [0] ∧
    (onPanEnd ⟨false, 2, 3, 0, 1/4⟩ ⟨1, -300, 300, [], []⟩ (-76)).pending = [2] := by
  have habs74 : |(74 : ℚ)| = 74 := abs_of_nonneg (by norm_num)
  have habs76 : |(76 : ℚ)| = 76 := abs_of_nonneg (by norm_num)
  have habs76n : |(-76 : ℚ)| = 76 := by
    rw [abs_of_nonpos (by norm_num)]
    norm_num
  have h74 := onPanEnd_boundary ⟨false, 2, 3, 0, 1/4⟩ ⟨1, -300, 300, [], []⟩ 74
    (by decide) (by decide)
  have h76 := onPanEnd_boundary ⟨false, 2, 3, 0, 1/4⟩ ⟨1, -300, 300, [], []⟩ 76
    (by decide) (by decide)
  have h76n := onPanEnd_boundary ⟨false, 2, 3, 0, 1/4⟩ ⟨1, -300, 300, [], []⟩ (-76)
    (by decide) (by decide)
  refine ⟨?_, ?_, ?_⟩
  · rw [h74.1]
    norm_num [habs74]
  · rw [h76.1]
    norm_num [habs76]
  · rw [h76n.1]
    norm_num [habs76n, framesCount, getClonesCount]

/-- C8: a pan-move whose delta exceeds a full frame size immediately commits a
one-step clamped move in the delta's direction (`d > 0` toward previous,
otherwise toward next) and invokes `hammer.stop(true)`, halting the rest of
the gesture sequence instead of continuing the live drag; no live reposition
of the container happens from this branch beyond the committed move. -/
theorem onPanMove_commit (cfg : Config) (s : State) (delta : ℚ)
    (h : s.frameSize < |delta|)
    (h0 : 0 ≤ s.activeIndex) (h1 : s.activeIndex ≤ (framesCount cfg : Int) - 1) :
    (onPanMove cfg s delta).2 = true ∧
    (onPanMove cfg s delta).1.pending =
      s.pending ++ [if 0 < delta then max (s.activeIndex - 1) 0
        else min (s.activeIndex + 1) ((framesCount cfg : Int) - 1)] ∧
    (onPanMove cfg s delta).1.activeIndex = s.activeIndex ∧
    (onPanMove cfg s delta).1.updates = s.updates := by
  unfold onPanMove
  rw [if_pos h]
  by_cases hd : 0 < delta
  · rw [if_pos hd, if_pos hd, prev_schedules cfg s h0 h1]
    exact ⟨rfl, rfl, rfl, rfl⟩
  · rw [if_neg hd, if_neg hd, next_schedules cfg s h0 h1]
    exact ⟨rfl, rfl, rfl, rfl⟩

theorem onPanMove_commit_witness :
    (onPanMove ⟨false, 2, 3, 0, 1/4⟩ ⟨1, -300, 300, [], []⟩ 350).2 = true ∧
    (onPanMove ⟨false, 2, 3, 0, 1/4⟩ ⟨1, -300, 300, [], []⟩ 350).1.pending = [0] := by
  have habs350 : |(350 : ℚ)| = 350 := abs_of_nonneg (by norm_num)
  have h := onPanMove_commit ⟨false, 2, 3, 0, 1/4⟩ ⟨1, -300, 300, [], []⟩ 350
    (by rw [show ((⟨1, -300, 300, [], []⟩ : State)).frameSize = (300 : ℚ) from rfl, habs350]; norm_num)
    (by decide) (by decide)
  refine ⟨h.1, ?_⟩
  rw [h.2.1]
  norm_num

/-- C9: a pan-move with `|d| ≤ frameSize` is a live drag: it never changes
`activeIndex`, schedules no completion, fires no `onFrameUpdate` and does not
halt the gesture.  With looping disabled, when the prospective position
`framePos + d` is out of bounds (`activeIndex = 0` with position ≥ 0, or
`activeIndex = last` with position ≤ `-frameSize·last`) the applied delta is
multiplied by exactly 0.15 before positioning; with looping enabled, or at any
interior index, the delta is applied undampened. -/
theorem onPanMove_drag (cfg : Config) (s : State) (delta : ℚ)
    (h : |delta| ≤ s.frameSize) :
    (onPanMove cfg s delta).2 = false ∧
    (onPanMove cfg s delta).1.activeIndex = s.activeIndex ∧
    (onPanMove cfg s delta).1.pending = s.pending ∧
    (onPanMove cfg s delta).1.updates = s.updates ∧
    (cfg.loop = false →
      isOutOfBounds cfg s (-(s.activeIndex : ℚ) * s.frameSize + delta) = true →
      (onPanMove cfg s delta).1.position =
        -(s.activeIndex : ℚ) * s.frameSize + delta * (0.15 : ℚ)) ∧
    (cfg.loop = true →
      (onPanMove cfg s delta).1.position =
        -(s.activeIndex : ℚ) * s.frameSize + delta) ∧
    (0 < s.activeIndex → s.activeIndex < (framesCount cfg : Int) - 1 →
      (onPanMove cfg s delta).1.position =
        -(s.activeIndex : ℚ) * s.frameSize + delta) := by
  unfold onPanMove
  rw [if_neg (not_lt.mpr h)]
  refine ⟨rfl, rfl, rfl, rfl, ?_, ?_, ?_⟩
  · intro hloop hoob
    rw [hoob, hloop]
    rfl
  · intro hloop
    rw [hloop]
    simp
  · intro hi0 hi1
    have hoob : isOutOfBounds cfg s (-(s.activeIndex : ℚ) * s.frameSize + delta) = false := by
      unfold isOutOfBounds
      simp only [Bool.or_eq_false_iff, decide_eq_false_iff_not]
      constructor
      · intro hc
        exact absurd hc.1 (by omega)
      · intro hc
        exact absurd hc.1 (by omega)
    rw [hoob]
    simp

theorem onPanMove_drag_witness :
    (onPanMove ⟨false, 2, 3, 0, 1/4⟩ ⟨0, 0, 300, [], []⟩ 50).1.position = 15/2 ∧
    (onPanMove ⟨false, 2, 3, 0, 1/4⟩ ⟨1, -300, 300, [], []⟩ 50).1.position = -250 := by
  have habs50 : |(50 : ℚ)| = 50 := abs_of_nonneg (by norm_num)
  have hle : |(50 : ℚ)| ≤ 300 := by
    rw [habs50]
    norm_num
  have hEdge := onPanMove_drag ⟨false, 2, 3, 0, 1/4⟩ ⟨0, 0, 300, [], []⟩ 50 hle
  have hMid := onPanMove_drag ⟨false, 2, 3, 0, 1/4⟩ ⟨1, -300, 300, [], []⟩ 50 hle
  have hoob : isOutOfBounds ⟨false, 2, 3, 0, 1/4⟩ ⟨0, 0, 300, [], []⟩
      (-((0 : Int) : ℚ) * 300 + 50) = true := by
    unfold isOutOfBounds
    norm_num
  constructor
  · rw [hEdge.2.2.2.2.1 rfl hoob]
    push_cast
    norm_num
  · rw [hMid.2.2.2.2.2.2 (by decide) (by decide)]
    push_cast
    norm_num

end Frames
